import Mathlib

/-!
# Verification of the Educate App storefront controller (src/app.js)

A shallow embedding of the Vue storefront controller in `src/app.js`:
the catalog/cart data model, the search and sort derivations
(`searchedLessons`, `sortedLessons`, `getSortValue`), the cart ledger
(`addToCart`, `removeOne`, `cartCount`, `cartTotal`), checkout validation
(`isCheckoutValid`), and the network workflows (`loadLessons`, `checkout`).

JavaScript strings are modelled through their character lists (`String.data`
in Lean), with `toLowerCase` as a per-character map, so that every operation
is kernel-computable.  Backend calls are modelled by an explicit response
oracle: each `fetch` either rejects (network error) or resolves with a
success bit (`res.ok`); user-visible `alert` calls are collected in a list.
-/

/-- One catalog lesson record, as fetched from the backend
(`{ subject, location, price, spaces, image }`, src/app.js line 23).
`price` is `Option Int` so that a record with a missing price field is
representable (`cartTotal` treats it as 0 via `item.price || 0`). -/
structure Lesson where
  subject : String
  location : String
  price : Option Int
  spaces : Int
  image : String
deriving Repr, DecidableEq

/-- One cart entry: the denormalized snapshot `{ subject, location, price }`
pushed by `addToCart` (src/app.js lines 199-203). -/
structure CartItem where
  subject : String
  location : String
  price : Option Int
deriving Repr, DecidableEq

/-- The checkout form data (`customer: { name, phone }`, src/app.js line 31). -/
structure Customer where
  name : String
  phone : String
deriving Repr, DecidableEq

/-- The mutable controller state: `lessons`, `cart`, `customer`,
`orderMessage` (src/app.js `data()`).  The query state (`searchQuery`,
`sortAttribute`, `sortDir`) only feeds the derived views and is passed to
them as arguments. -/
structure AppState where
  lessons : List Lesson
  cart : List CartItem
  customer : Customer
  orderMessage : String
deriving Repr, DecidableEq

/-- JavaScript `s.toLowerCase()`, on the character list of the string. -/
def lowerChars (s : String) : List Char :=
  s.data.map Char.toLower

/-- JavaScript `String(n || "")` for a possibly missing numeric field:
a missing field and the number `0` are falsy and render as `""`;
any other number renders as its decimal string. -/
def renderOptInt : Option Int → List Char
  | none => []
  | some n => if n = 0 then [] else (toString n).data

/-- JavaScript `String(n || "")` for a present numeric field. -/
def renderInt (n : Int) : List Char :=
  if n = 0 then [] else (toString n).data

/-- Does `haystack` start with `needle`?  (Helper for substring search.) -/
def beginsWith : List Char → List Char → Bool
  | _, [] => true
  | [], _ :: _ => false
  | c :: cs, d :: ds => c == d && beginsWith cs ds

/-- JavaScript `haystack.includes(needle)`: substring containment. -/
def hasSub : List Char → List Char → Bool
  | [], needle => beginsWith [] needle
  | c :: rest, needle => beginsWith (c :: rest) needle || hasSub rest needle

/-- `String(lesson.subject || "").toLowerCase()` (src/app.js line 56). -/
def subjectText (l : Lesson) : List Char := lowerChars l.subject

/-- `String(lesson.location || "").toLowerCase()` (src/app.js line 57). -/
def locationText (l : Lesson) : List Char := lowerChars l.location

/-- `String(lesson.price || "").toLowerCase()` (src/app.js line 58). -/
def priceText (l : Lesson) : List Char := (renderOptInt l.price).map Char.toLower

/-- `String(lesson.spaces || "").toLowerCase()` (src/app.js line 59). -/
def spacesText (l : Lesson) : List Char := (renderInt l.spaces).map Char.toLower

/-- The body of the `searchedLessons` loop (src/app.js lines 49-69):
an empty term keeps every lesson; otherwise a lesson is kept when the term
occurs in one of the four lowercased field renderings. -/
def searchLoop (term : List Char) : List Lesson → List Lesson
  | [] => []
  | l :: rest =>
    if term.isEmpty then l :: searchLoop term rest
    else if hasSub (subjectText l) term || hasSub (locationText l) term ||
            hasSub (priceText l) term || hasSub (spacesText l) term then
      l :: searchLoop term rest
    else searchLoop term rest

/-- The computed view `searchedLessons` (src/app.js lines 45-72):
`term := searchQuery.toLowerCase()`, then the filtering loop. -/
def searchedLessons (lessons : List Lesson) (searchQuery : String) : List Lesson :=
  searchLoop (lowerChars searchQuery) lessons

/-- The specification-side matcher for `filteredView`: at least one of the
four textual field renderings contains the query case-insensitively
(both sides lowercased). -/
def matchesCI (q : String) (l : Lesson) : Bool :=
  hasSub (subjectText l) (lowerChars q) || hasSub (locationText l) (lowerChars q) ||
  hasSub (priceText l) (lowerChars q) || hasSub (spacesText l) (lowerChars q)

/-- The sort attribute enum: `"subject" | "location" | "price" | "spaces"`
(src/app.js line 18). -/
inductive SortAttr
  | subject
  | location
  | price
  | spaces
deriving Repr, DecidableEq

/-- The sort direction enum: `"asc" | "desc"` (src/app.js line 20). -/
inductive SortDir
  | asc
  | desc
deriving Repr, DecidableEq

/-- A sort key as produced by `getSortValue`: a lowercased string for the
text attributes, a number for the numeric ones. -/
inductive SortVal
  | str : List Char → SortVal
  | num : Int → SortVal
deriving Repr, DecidableEq

/-- `getSortValue` (src/app.js lines 137-151): lowercased string for
`subject`/`location` (absent field → `""`), `price || 0` and `spaces || 0`
for the numeric attributes.  The trailing `return 0` of the source is dead
code because `sortAttribute` ranges over exactly these four values. -/
def getSortValue (attr : SortAttr) (l : Lesson) : SortVal :=
  match attr with
  | .subject => .str (lowerChars l.subject)
  | .location => .str (lowerChars l.location)
  | .price => .num (l.price.getD 0)
  | .spaces => .num l.spaces

/-- Lexicographic strict order on character lists: the JavaScript `<`
on strings, by character code. -/
def lexLT : List Char → List Char → Bool
  | [], [] => false
  | [], _ :: _ => true
  | _ :: _, [] => false
  | a :: as, b :: bs =>
    if a < b then true
    else if b < a then false
    else lexLT as bs

/-- The strict order used by the sort comparator (`aVal > bVal` / `aVal < bVal`,
src/app.js lines 85-86).  A mixed string/number comparison is `false` both
ways (as for JavaScript `NaN` comparisons); it never arises because a fixed
`sortAttribute` produces keys of a single kind. -/
def svLT : SortVal → SortVal → Bool
  | .str a, .str b => lexLT a b
  | .num a, .num b => decide (a < b)
  | .str _, .num _ => false
  | .num _, .str _ => false

/-- The "keep `a` before `b`" relation realized by the stable sort with the
source's comparator: the comparator returns a positive value exactly when
`aVal > bVal`, so `a` stays before `b` iff `¬(aVal > bVal)`. -/
def lessonLE (attr : SortAttr) (a b : Lesson) : Bool :=
  !svLT (getSortValue attr b) (getSortValue attr a)

/-- The computed view `sortedLessons` (src/app.js lines 77-96): a copy of the
searched list is sorted with the comparator (JavaScript `Array.prototype.sort`
is stable, modelled as a stable merge sort), and reversed afterwards when the
direction is `"desc"`. -/
def sortedLessons (attr : SortAttr) (dir : SortDir) (searched : List Lesson) : List Lesson :=
  let list := searched.mergeSort (lessonLE attr)
  if dir = .desc then list.reverse else list

/-- `displayedLessons` (src/app.js lines 101-104): the search view followed
by the sort view. -/
def displayedLessons (lessons : List Lesson) (searchQuery : String)
    (attr : SortAttr) (dir : SortDir) : List Lesson :=
  sortedLessons attr dir (searchedLessons lessons searchQuery)

/-- `cartCount` (src/app.js lines 107-109). -/
def cartCount (s : AppState) : Nat :=
  s.cart.length

/-- `cartTotal` (src/app.js lines 112-116):
`cart.reduce((sum, item) => sum + (item.price || 0), 0)`. -/
def cartTotal (s : AppState) : Int :=
  s.cart.foldl (fun sum item => sum + item.price.getD 0) 0

/-- `/^[A-Za-z ]+$/.test(name)`: nonempty, and every character is an ASCII
letter or a space. -/
def nameOK (name : String) : Bool :=
  !name.data.isEmpty && name.data.all (fun c => c.isAlpha || c == ' ')

/-- `/^[0-9]+$/.test(phone)`: nonempty, and every character is an ASCII digit. -/
def phoneOK (phone : String) : Bool :=
  !phone.data.isEmpty && phone.data.all (fun c => c.isDigit)

/-- `isCheckoutValid` (src/app.js lines 119-123). -/
def isCheckoutValid (s : AppState) : Bool :=
  nameOK s.customer.name && phoneOK s.customer.phone && decide (0 < s.cart.length)

/-- The CartItem snapshot pushed by `addToCart` (src/app.js lines 199-203). -/
def snapshot (l : Lesson) : CartItem :=
  ⟨l.subject, l.location, l.price⟩

/-- `addToCart(lesson)` (src/app.js lines 192-204).  The `lesson` argument is
a reference into the catalog, modelled as an optional index: `none` is an
absent reference (`!lesson`).  When the lesson exists and has `spaces > 0`,
its `spaces` is decremented in place and a snapshot is pushed onto the cart;
otherwise the call is a no-op. -/
def addToCart (s : AppState) (lessonRef : Option Nat) : AppState :=
  match lessonRef with
  | none => s
  | some i =>
    match s.lessons[i]? with
    | none => s
    | some l =>
      if l.spaces ≤ 0 then s
      else
        { s with
          lessons := s.lessons.set i { l with spaces := l.spaces - 1 },
          cart := s.cart ++ [snapshot l] }

/-- The natural-key match used by `removeOne` and `checkout`
(`l.subject === item.subject && l.location === item.location`). -/
def keyMatches (l : Lesson) (item : CartItem) : Bool :=
  l.subject == item.subject && l.location == item.location

/-- The effect of `this.lessons.find(...)` followed by `lesson.spaces += 1`
(src/app.js lines 218-226): the first catalog lesson matching the item's
(subject, location) gets one space back; if none matches, nothing changes. -/
def giveBackSpace : List Lesson → CartItem → List Lesson
  | [], _ => []
  | l :: rest, item =>
    if keyMatches l item then { l with spaces := l.spaces + 1 } :: rest
    else l :: giveBackSpace rest item

/-- `removeOne(index, item)` (src/app.js lines 211-227): a silent no-op when
`index < 0 || index >= cart.length`; otherwise `cart.splice(index, 1)` and
one space returned to the first catalog lesson matching `item`. -/
def removeOne (s : AppState) (index : Int) (item : CartItem) : AppState :=
  if index < 0 || (s.cart.length : Int) ≤ index then s
  else
    { s with
      cart := s.cart.eraseIdx index.toNat,
      lessons := giveBackSpace s.lessons item }

/-- The outcome of one `fetch`: the promise either rejects (network error)
or resolves with a success bit (`res.ok`). -/
inductive Resp
  | netErr
  | status (ok : Bool)
deriving Repr, DecidableEq

/-- `loadLessons` (src/app.js lines 177-187), with the backend response as an
explicit argument (`data` is the decoded body used on success; a body that
fails to decode is a rejected promise, covered by `netErr`).  Returns the new
state together with the `alert` messages produced. -/
def loadLessons (s : AppState) (resp : Resp) (data : List Lesson) :
    AppState × List String :=
  match resp with
  | .netErr => (s, ["Could not load lessons."])
  | .status ok =>
    if ok then ({ s with lessons := data }, [])
    else (s, ["Could not load lessons."])

/-- Observable outcome of one `checkout()` call: rejected by validation
(state machine stays `Idle`), aborted by the `catch` block (`Failed`), or
completed (`Success`). -/
inductive Outcome
  | noOp
  | failed
  | success
deriving Repr, DecidableEq

/-- Result of one `checkout()` call: the final state, the outcome, the number
of per-item PUT requests issued, and the `alert` messages produced. -/
structure CheckoutResult where
  state : AppState
  outcome : Outcome
  putsIssued : Nat
  alerts : List String
deriving Repr, DecidableEq

/-- The per-item PUT loop of `checkout` (src/app.js lines 254-271).
`resps k` is the response to the `k`-th PUT actually issued; an item with no
matching lesson issues no request (`continue`).  The source never inspects
`res.ok` of a PUT, so only a rejected promise (network error) aborts the
loop; a resolved response continues regardless of its status.  Returns the
number of PUTs issued and whether the loop ran to completion. -/
def runPuts (lessons : List Lesson) (items : List CartItem) (resps : Nat → Resp)
    (k : Nat) : Nat × Bool :=
  match items with
  | [] => (k, true)
  | item :: rest =>
    match lessons.find? (fun l => keyMatches l item) with
    | none => runPuts lessons rest resps k
    | some _ =>
      match resps k with
      | .netErr => (k + 1, false)
      | .status _ => runPuts lessons rest resps (k + 1)

/-- `checkout()` (src/app.js lines 232-284), with the backend responses as
explicit arguments: the order POST response, the PUT responses (indexed by
issue order), and the response/data of the final `loadLessons` reload.
Invalid input is a silent no-op; a thrown failure (order rejected by the
network, `!res.ok` on the order, or a network error in the PUT loop) lands in
the `catch` block with the state untouched; otherwise the cart and customer
are cleared, the confirmation message is set, and the catalog is reloaded. -/
def checkout (s : AppState) (orderResp : Resp) (putResps : Nat → Resp)
    (reloadResp : Resp) (reloadData : List Lesson) : CheckoutResult :=
  if !isCheckoutValid s then ⟨s, .noOp, 0, []⟩
  else
    match orderResp with
    | .netErr => ⟨s, .failed, 0, ["There was a problem submitting your order."]⟩
    | .status ok =>
      if !ok then ⟨s, .failed, 0, ["There was a problem submitting your order."]⟩
      else
        match runPuts s.lessons s.cart putResps 0 with
        | (n, false) => ⟨s, .failed, n, ["There was a problem submitting your order."]⟩
        | (n, true) =>
          let s1 : AppState :=
            { s with orderMessage := "Order submitted!", cart := [], customer := ⟨"", ""⟩ }
          let reload := loadLessons s1 reloadResp reloadData
          ⟨reload.1, .success, n, reload.2⟩

/-! ## Concrete fixtures used by scenario conjuncts, witnesses and counterexamples -/

/-- The lesson of the cart scenario in the specification:
`{subject:"Math", location:"Hall A", price:20, spaces:2}`. -/
def mathLesson : Lesson := ⟨"Math", "Hall A", some 20, 2, ""⟩

/-- A state holding only `mathLesson`, with an empty cart. -/
def mathState : AppState := ⟨[mathLesson], [], ⟨"", ""⟩, ""⟩

/-- A state with valid customer data and a nonempty cart. -/
def janeState : AppState := ⟨[], [⟨"Math", "Hall A", some 20⟩], ⟨"Jane Doe", "5551234"⟩, ""⟩

/-- A checkout-ready state: one catalog lesson, one matching cart entry,
valid customer data. -/
def cxState : AppState :=
  ⟨[mathLesson], [⟨"Math", "Hall A", some 20⟩], ⟨"Jane Doe", "5551234"⟩, ""⟩

/-- Catalog lesson `A` at location `X`. -/
def lessonA : Lesson := ⟨"A", "X", some 1, 5, ""⟩

/-- Catalog lesson `B` at location `Y`. -/
def lessonB : Lesson := ⟨"B", "Y", some 2, 5, ""⟩

/-- A cart entry snapshotting `lessonA`. -/
def itemA : CartItem := ⟨"A", "X", some 1⟩

/-- A cart entry snapshotting `lessonB`. -/
def itemB : CartItem := ⟨"B", "Y", some 2⟩

/-- A state with two distinct lessons and a cart entry for `lessonA`. -/
def twoState : AppState := ⟨[lessonA, lessonB], [itemA], ⟨"", ""⟩, ""⟩

/-! ## Query engine lemmas -/

/-- The empty needle is a substring of everything (JavaScript
`s.includes("")` is always true). -/
theorem hasSub_nil (h : List Char) : hasSub h [] = true := by
  cases h <;> simp [hasSub, beginsWith]

/-- The search loop is the filter by the four-field OR-matcher. -/
theorem searchLoop_eq_filter (term : List Char) (L : List Lesson) :
    searchLoop term L = L.filter (fun l =>
      hasSub (subjectText l) term || hasSub (locationText l) term ||
      hasSub (priceText l) term || hasSub (spacesText l) term) := by
  induction L with
  | nil => rfl
  | cons l rest ih =>
    by_cases hterm : term.isEmpty
    · have hnil : term = [] := by simpa using hterm
      subst hnil
      simp [searchLoop, List.filter_cons, hasSub_nil, ih]
    · by_cases hmatch : (hasSub (subjectText l) term || hasSub (locationText l) term ||
          hasSub (priceText l) term || hasSub (spacesText l) term) = true
      · simp [searchLoop, hterm, hmatch, List.filter_cons, ih]
      · simp [searchLoop, hterm, hmatch, List.filter_cons, ih]

/-- Claim C2: for every catalog `C` and search term `t`, `searchedLessons C t`
contains exactly the lessons for which at least one of the four textual field
renderings (subject, location, price, spaces) contains `t` case-insensitively,
in catalog order (it equals the order-preserving filter by `matchesCI t`);
and `searchedLessons C ""` returns `C` itself, same elements in the same
order. -/
theorem filteredView_spec (C : List Lesson) (t : String) :
    searchedLessons C t = C.filter (matchesCI t) ∧ searchedLessons C "" = C := by
  constructor
  · rw [searchedLessons, searchLoop_eq_filter]
    rfl
  · rw [searchedLessons]
    have hnil : lowerChars "" = [] := rfl
    rw [hnil, searchLoop_eq_filter]
    simp [hasSub_nil]

/-! ## Cart ledger lemmas -/

/-- Claim C5: `addToCart` is a no-op when the lesson reference is absent or
the lesson's `spaces` is `≤ 0`; otherwise it decrements that lesson's
`spaces` by exactly 1 and appends one snapshot of (subject, location, price)
to the cart, touching nothing else.  On the catalog
`[{subject:"Math", location:"Hall A", price:20, spaces:2}]`, two `addToCart`
calls yield `spaces = 0`, cart length 2 and cart total 40, and a third
`addToCart` changes nothing. -/
theorem addSeat_spec (s : AppState) :
    (addToCart s none = s) ∧
    (∀ (i : Nat) (l : Lesson), s.lessons[i]? = some l → l.spaces ≤ 0 →
      addToCart s (some i) = s) ∧
    (∀ (i : Nat) (l : Lesson), s.lessons[i]? = some l → 0 < l.spaces →
      (addToCart s (some i)).lessons = s.lessons.set i { l with spaces := l.spaces - 1 } ∧
      (addToCart s (some i)).cart = s.cart ++ [snapshot l] ∧
      (addToCart s (some i)).customer = s.customer ∧
      (addToCart s (some i)).orderMessage = s.orderMessage) ∧
    ((addToCart (addToCart mathState (some 0)) (some 0)).lessons.map Lesson.spaces = [0] ∧
      cartCount (addToCart (addToCart mathState (some 0)) (some 0)) = 2 ∧
      cartTotal (addToCart (addToCart mathState (some 0)) (some 0)) = 40 ∧
      addToCart (addToCart (addToCart mathState (some 0)) (some 0)) (some 0) =
        addToCart (addToCart mathState (some 0)) (some 0)) := by
  refine ⟨rfl, ?_, ?_, by decide, by decide, by decide, by decide⟩
  · intro i l hl hsp
    simp [addToCart, hl, hsp]
  · intro i l hl hsp
    have hns : ¬ l.spaces ≤ 0 := not_le.mpr hsp
    simp [addToCart, hl, hns]

/-- Witness for `addSeat_spec` at the scenario state. -/
theorem addSeat_spec_witness :
    (addToCart mathState (some 0)).cart = mathState.cart ++ [snapshot mathLesson] :=
  ((addSeat_spec mathState).2.2.1 0 mathLesson rfl (by decide)).2.1

/-- `reduce((sum, item) => sum + (item.price || 0), init)` computes `init`
plus the sum of the per-item prices. -/
theorem foldl_price (cart : List CartItem) (init : Int) :
    cart.foldl (fun sum item => sum + item.price.getD 0) init =
      init + (cart.map (fun it => it.price.getD 0)).sum := by
  induction cart generalizing init with
  | nil => simp
  | cons c rest ih =>
    simp only [List.foldl_cons, List.map_cons, List.sum_cons, ih]
    ring

/-- Removing the entry at a valid index removes exactly its contribution
from the mapped sum. -/
theorem sum_map_eraseIdx (f : CartItem → Int) (l : List CartItem) :
    ∀ (i : Nat) (hi : i < l.length),
      ((l.eraseIdx i).map f).sum = (l.map f).sum - f (l.get ⟨i, hi⟩) := by
  induction l with
  | nil => intro i hi; simp at hi
  | cons c rest ih =>
    intro i hi
    cases i with
    | zero => simp [List.eraseIdx]
    | succ n =>
      have hn : n < rest.length := by simpa using hi
      simp only [List.eraseIdx, List.map_cons, List.sum_cons, ih n hn, List.get_cons_succ]
      ring

/-- Claim C7: `cartTotal` equals the sum of the cart items' price fields
with a missing price counted as 0; a successful `addToCart` increases it by
exactly the added lesson's price, and `removeOne` at a valid index on the
cart entry at that index decreases it by exactly that entry's captured
price. -/
theorem cartTotal_spec (s : AppState) :
    (cartTotal s = (s.cart.map (fun it => it.price.getD 0)).sum) ∧
    (∀ (i : Nat) (l : Lesson), s.lessons[i]? = some l → 0 < l.spaces →
      cartTotal (addToCart s (some i)) = cartTotal s + l.price.getD 0) ∧
    (∀ (i : Nat) (hi : i < s.cart.length),
      cartTotal (removeOne s (i : Int) (s.cart.get ⟨i, hi⟩)) =
        cartTotal s - (s.cart.get ⟨i, hi⟩).price.getD 0) := by
  refine ⟨by simpa using foldl_price s.cart 0, ?_, ?_⟩
  · intro i l hl hsp
    have hns : ¬ l.spaces ≤ 0 := not_le.mpr hsp
    simp [cartTotal, addToCart, hl, hns, foldl_price, snapshot]
  · intro i hi
    have h0 : ¬ ((i : Int) < 0) := by omega
    have h1 : ¬ ((s.cart.length : Int) ≤ (i : Int)) := by exact_mod_cast not_le.mpr hi
    simp only [removeOne, h0, h1, Bool.or_self, if_neg, decide_eq_true_eq,
      decide_eq_false_iff_not, not_false_eq_true]
    simp [cartTotal, foldl_price, Int.toNat_natCast, sum_map_eraseIdx _ s.cart i hi]

/-- Witness for `cartTotal_spec`: adding a seat for `mathLesson` raises the
total by its price. -/
theorem cartTotal_spec_witness :
    cartTotal (addToCart mathState (some 0)) = cartTotal mathState + mathLesson.price.getD 0 :=
  (cartTotal_spec mathState).2.1 0 mathLesson rfl (by decide)

/-! ## Checkout validation lemmas -/

/-- An ASCII digit is not an ASCII letter. -/
theorem isDigit_not_isAlpha {c : Char} (h : c.isDigit = true) : c.isAlpha = false := by
  simp [Char.isDigit, Char.isAlpha, Char.isUpper, Char.isLower, Char.le_def,
    UInt32.le_def, BitVec.le_def] at *
  omega

/-- An ASCII digit is not a space. -/
theorem isDigit_ne_space {c : Char} (h : c.isDigit = true) : c ≠ ' ' := by
  rintro rfl
  simp [Char.isDigit] at h

/-- An ASCII letter is not an ASCII digit. -/
theorem isAlpha_not_isDigit {c : Char} (h : c.isAlpha = true) : c.isDigit = false := by
  cases hd : c.isDigit
  · rfl
  · rw [isDigit_not_isAlpha hd] at h
    cases h

/-- Claim C8: `isCheckoutValid` holds exactly when the customer name matches
`^[A-Za-z ]+$`, the phone matches `^[0-9]+$`, and the cart is non-empty; it
is false whenever the cart is empty, the name contains a digit, or the phone
contains a letter; it is true for name "Jane Doe", phone "5551234" with a
non-empty cart; and whenever it does not hold, `checkout` is a no-op that
leaves all state unchanged (and issues no request and no alert). -/
theorem isCheckoutValid_spec (s : AppState) :
    (isCheckoutValid s = true ↔
      (s.customer.name.data ≠ [] ∧
        ∀ c ∈ s.customer.name.data, c.isAlpha = true ∨ c = ' ') ∧
      (s.customer.phone.data ≠ [] ∧ ∀ c ∈ s.customer.phone.data, c.isDigit = true) ∧
      s.cart ≠ []) ∧
    (s.cart = [] → isCheckoutValid s = false) ∧
    ((∃ c ∈ s.customer.name.data, c.isDigit = true) → isCheckoutValid s = false) ∧
    ((∃ c ∈ s.customer.phone.data, c.isAlpha = true) → isCheckoutValid s = false) ∧
    (s.customer.name = "Jane Doe" → s.customer.phone = "5551234" → s.cart ≠ [] →
      isCheckoutValid s = true) ∧
    (isCheckoutValid s = false →
      ∀ (orderResp : Resp) (putResps : Nat → Resp) (reloadResp : Resp)
        (reloadData : List Lesson),
        checkout s orderResp putResps reloadResp reloadData = ⟨s, .noOp, 0, []⟩) := by
  have hiff : isCheckoutValid s = true ↔
      (s.customer.name.data ≠ [] ∧
        ∀ c ∈ s.customer.name.data, c.isAlpha = true ∨ c = ' ') ∧
      (s.customer.phone.data ≠ [] ∧ ∀ c ∈ s.customer.phone.data, c.isDigit = true) ∧
      s.cart ≠ [] := by
    simp [isCheckoutValid, nameOK, phoneOK, List.all_eq_true, List.isEmpty_iff,
      List.length_pos_iff_ne_nil, and_assoc]
  refine ⟨hiff, ?_, ?_, ?_, ?_, ?_⟩
  · intro hc
    cases hv : isCheckoutValid s
    · rfl
    · exact absurd ((hiff.mp hv).2.2) (by simp [hc])
  · rintro ⟨c, hc, hd⟩
    cases hv : isCheckoutValid s
    · rfl
    · rcases ((hiff.mp hv).1.2) c hc with ha | hsp
      · rw [isDigit_not_isAlpha hd] at ha; cases ha
      · exact absurd hsp (isDigit_ne_space hd)
  · rintro ⟨c, hc, ha⟩
    cases hv : isCheckoutValid s
    · rfl
    · have := ((hiff.mp hv).2.1.2) c hc
      rw [isAlpha_not_isDigit ha] at this
      cases this
  · intro hn hp hc
    refine hiff.mpr ⟨?_, ?_, hc⟩
    · rw [hn]; decide
    · rw [hp]; decide
  · intro hv orderResp putResps reloadResp reloadData
    simp [checkout, hv]

/-- Witness for `isCheckoutValid_spec` at a concrete valid state. -/
theorem isCheckoutValid_spec_witness : isCheckoutValid janeState = true :=
  (isCheckoutValid_spec janeState).2.2.2.2.1 rfl rfl (by decide)

/-! ## Catalog load lemma -/

/-- Claim C9: when `loadLessons` fails — transport error or non-success
response status — the previously held catalog (indeed the whole state) is
left unchanged and the user-visible failure alert is produced.  (The
embedding issues a single fetch per call by construction: no retry.) -/
theorem loadCatalog_failure_spec (s : AppState) (resp : Resp) (data : List Lesson)
    (h : resp = .netErr ∨ resp = .status false) :
    loadLessons s resp data = (s, ["Could not load lessons."]) := by
  rcases h with h | h <;> subst h <;> rfl

/-- Witness for `loadCatalog_failure_spec` at a concrete state. -/
theorem loadCatalog_failure_spec_witness :
    loadLessons mathState .netErr [] = (mathState, ["Could not load lessons."]) :=
  loadCatalog_failure_spec mathState .netErr [] (Or.inl rfl)

/-! ## Cart removal lemmas -/

/-- When no catalog lesson matches the item, `giveBackSpace` changes
nothing. -/
theorem giveBackSpace_of_no_match (item : CartItem) :
    ∀ (L : List Lesson), (∀ l ∈ L, keyMatches l item = false) →
      giveBackSpace L item = L := by
  intro L
  induction L with
  | nil => intro _; rfl
  | cons l rest ih =>
    intro h
    simp [giveBackSpace, h l (List.mem_cons_self l rest),
      ih (fun x hx => h x (List.mem_cons_of_mem l hx))]

/-- When the first catalog lesson matching the item sits at index `j`,
`giveBackSpace` increments exactly that lesson's `spaces` by 1. -/
theorem giveBackSpace_first_match (item : CartItem) :
    ∀ (L : List Lesson) (j : Nat) (hj : j < L.length),
      keyMatches (L.get ⟨j, hj⟩) item = true →
      (∀ (k : Nat) (hk : k < j), keyMatches (L.get ⟨k, Nat.lt_trans hk hj⟩) item = false) →
      giveBackSpace L item =
        L.set j { L.get ⟨j, hj⟩ with spaces := (L.get ⟨j, hj⟩).spaces + 1 } := by
  intro L
  induction L with
  | nil => intro j hj; simp at hj
  | cons l rest ih =>
    intro j hj hmatch hfirst
    cases j with
    | zero =>
      have hm : keyMatches l item = true := hmatch
      simp [giveBackSpace, hm]
    | succ n =>
      have h0 : keyMatches l item = false := hfirst 0 (Nat.succ_pos n)
      have hn : n < rest.length := Nat.lt_of_succ_lt_succ hj
      have hmatch2 : keyMatches (rest.get ⟨n, hn⟩) item = true := by
        simpa using hmatch
      have hfirst2 : ∀ (k : Nat) (hk : k < n),
          keyMatches (rest.get ⟨k, Nat.lt_trans hk hn⟩) item = false := by
        intro k hk
        simpa using hfirst (k + 1) (Nat.succ_lt_succ hk)
      simp [giveBackSpace, h0, ih n hn hmatch2 hfirst2]

/-- Setting an index to the element already there changes nothing. -/
theorem set_get_self : ∀ (l : List Lesson) (i : Nat) (h : i < l.length),
    l.set i (l.get ⟨i, h⟩) = l := by
  intro l
  induction l with
  | nil => intro i h; simp at h
  | cons a rest ih =>
    intro i h
    cases i with
    | zero => simp
    | succ n =>
      have hrec := ih n (Nat.lt_of_succ_lt_succ h)
      simp only [List.set_cons_succ, List.cons.injEq, true_and]
      exact hrec

/-- Removing the just-appended last element restores the original list. -/
theorem eraseIdx_append_length (a : CartItem) :
    ∀ (l : List CartItem), (l ++ [a]).eraseIdx l.length = l := by
  intro l
  induction l with
  | nil => rfl
  | cons c rest ih => simp [ih]

/-- Claim C6: `removeOne` with an index outside the cart's bounds is a no-op
on the whole state; with a valid index and the cart entry at that index as
the `item` argument it removes exactly that entry and increments the spaces
of the first catalog lesson matching the removed entry's (subject, location)
by 1; if no catalog lesson matches, the cart removal still succeeds and no
lesson changes. -/
theorem removeSeat_spec (s : AppState) (index : Int) (item : CartItem) :
    ((index < 0 ∨ (s.cart.length : Int) ≤ index) → removeOne s index item = s) ∧
    (∀ (i : Nat) (hi : i < s.cart.length), index = (i : Int) → s.cart.get ⟨i, hi⟩ = item →
      (removeOne s index item).cart = s.cart.eraseIdx i ∧
      (removeOne s index item).customer = s.customer ∧
      ((∀ l ∈ s.lessons, keyMatches l item = false) →
        (removeOne s index item).lessons = s.lessons) ∧
      (∀ (j : Nat) (hj : j < s.lessons.length),
        keyMatches (s.lessons.get ⟨j, hj⟩) item = true →
        (∀ (k : Nat) (hk : k < j),
          keyMatches (s.lessons.get ⟨k, Nat.lt_trans hk hj⟩) item = false) →
        (removeOne s index item).lessons =
          s.lessons.set j { s.lessons.get ⟨j, hj⟩ with
            spaces := (s.lessons.get ⟨j, hj⟩).spaces + 1 })) := by
  constructor
  · intro h
    rcases h with h | h <;> simp [removeOne, h]
  · intro i hi hidx hitem
    subst hidx
    have h0 : ¬ ((i : Int) < 0) := by omega
    have h1 : ¬ ((s.cart.length : Int) ≤ (i : Int)) := by exact_mod_cast not_le.mpr hi
    refine ⟨by simp [removeOne, h0, h1], by simp [removeOne, h0, h1], ?_, ?_⟩
    · intro hno
      simp [removeOne, h0, h1, giveBackSpace_of_no_match item s.lessons hno]
    · intro j hj hmatch hfirst
      simp [removeOne, h0, h1, giveBackSpace_first_match item s.lessons j hj hmatch hfirst]

/-- Witness for `removeSeat_spec`: removing the only cart entry of `twoState`
restores one space to `lessonA` and leaves `lessonB` alone. -/
theorem removeSeat_spec_witness :
    (removeOne twoState (0 : Int) itemA).cart = [] ∧
    (removeOne twoState (0 : Int) itemA).lessons = [⟨"A", "X", some 1, 6, ""⟩, lessonB] := by
  have h := (removeSeat_spec twoState (0 : Int) itemA).2 0 (by decide) (by decide) (by decide)
  exact ⟨h.1.trans (by decide),
    (h.2.2.2 0 (by decide) (by decide) (fun k hk => absurd hk (Nat.not_lt_zero k))).trans
      (by decide)⟩

/-- Claim C10: `removeOne` keys the seat restoration off its separate `item`
argument, not off the cart entry at the given index: for any in-bounds index
and any item value, the cart loses its element at that index while the
spaces increment goes to the first catalog lesson matching the argument
item's (subject, location) — none when no lesson matches it. -/
theorem removeOne_keys_on_item (s : AppState) (i : Nat) (hi : i < s.cart.length)
    (item : CartItem) :
    (removeOne s (i : Int) item).cart = s.cart.eraseIdx i ∧
    ((∀ l ∈ s.lessons, keyMatches l item = false) →
      (removeOne s (i : Int) item).lessons = s.lessons) ∧
    (∀ (j : Nat) (hj : j < s.lessons.length),
      keyMatches (s.lessons.get ⟨j, hj⟩) item = true →
      (∀ (k : Nat) (hk : k < j),
        keyMatches (s.lessons.get ⟨k, Nat.lt_trans hk hj⟩) item = false) →
      (removeOne s (i : Int) item).lessons =
        s.lessons.set j { s.lessons.get ⟨j, hj⟩ with
          spaces := (s.lessons.get ⟨j, hj⟩).spaces + 1 }) := by
  have h0 : ¬ ((i : Int) < 0) := by omega
  have h1 : ¬ ((s.cart.length : Int) ≤ (i : Int)) := by exact_mod_cast not_le.mpr hi
  refine ⟨by simp [removeOne, h0, h1], ?_, ?_⟩
  · intro hno
    simp [removeOne, h0, h1, giveBackSpace_of_no_match item s.lessons hno]
  · intro j hj hmatch hfirst
    simp [removeOne, h0, h1, giveBackSpace_first_match item s.lessons j hj hmatch hfirst]

/-- Witness for `removeOne_keys_on_item`, demonstrating the divergence: the
cart loses the entry for `lessonA` while the space goes back to `lessonB`,
because the passed item differs from the removed cart entry. -/
theorem removeOne_keys_on_item_witness :
    (removeOne twoState (0 : Int) itemB).cart = [] ∧
    (removeOne twoState (0 : Int) itemB).lessons = [lessonA, ⟨"B", "Y", some 2, 6, ""⟩] := by
  have hi : (0 : Nat) < twoState.cart.length := by decide
  have h := removeOne_keys_on_item twoState 0 hi itemB
  have hj : (1 : Nat) < twoState.lessons.length := by decide
  have hm : keyMatches (twoState.lessons.get ⟨1, hj⟩) itemB = true :=
    (by decide : keyMatches lessonB itemB = true)
  have h2 := h.2.2 1 hj hm
    (fun k hk => by
      have hk0 : k = 0 := by omega
      subst hk0
      exact (by decide : keyMatches lessonA itemB = false))
  exact ⟨h.1.trans (by decide), h2.trans rfl⟩

/-- Claim C4: for a catalog lesson with at least one free space whose
(subject, location) key is unambiguous in the catalog, `addToCart` on it
followed immediately by `removeOne` on the cart entry just added (the new
last entry, at index `cart.length`, with its snapshot as the item) restores
the whole state: in particular the lesson's `spaces` returns to its prior
value and the cart length is unchanged. -/
theorem addSeat_removeSeat_roundtrip (s : AppState) (i : Nat) (hi : i < s.lessons.length)
    (hsp : 0 < (s.lessons.get ⟨i, hi⟩).spaces)
    (huniq : ∀ (j : Nat) (hj : j < s.lessons.length),
      keyMatches (s.lessons.get ⟨j, hj⟩) (snapshot (s.lessons.get ⟨i, hi⟩)) = true → j = i) :
    removeOne (addToCart s (some i)) ((s.cart.length : Int))
      (snapshot (s.lessons.get ⟨i, hi⟩)) = s := by
  set l := s.lessons.get ⟨i, hi⟩ with hl
  have hget : s.lessons[i]? = some l := by
    rw [List.getElem?_eq_getElem hi]; rfl
  have hns : ¬ l.spaces ≤ 0 := not_le.mpr hsp
  have hadd : addToCart s (some i) =
      { s with
        lessons := s.lessons.set i { l with spaces := l.spaces - 1 },
        cart := s.cart ++ [snapshot l] } := by
    simp [addToCart, hget, hns]
  rw [hadd]
  set L2 := s.lessons.set i { l with spaces := l.spaces - 1 } with hL2
  have hlen2 : L2.length = s.lessons.length := by simp [hL2]
  have hi2 : i < L2.length := by rw [hlen2]; exact hi
  have hgeti : L2.get ⟨i, hi2⟩ = { l with spaces := l.spaces - 1 } := by
    simp [hL2]
  have hmatch : keyMatches (L2.get ⟨i, hi2⟩) (snapshot l) = true := by
    rw [hgeti]
    simp [keyMatches, snapshot]
  have hfirst : ∀ (k : Nat) (hk : k < i),
      keyMatches (L2.get ⟨k, Nat.lt_trans hk hi2⟩) (snapshot l) = false := by
    intro k hk
    have hki : k ≠ i := Nat.ne_of_lt hk
    have hkl : k < s.lessons.length := by
      rw [← hlen2]; exact Nat.lt_trans hk hi2
    have hik : i ≠ k := Ne.symm hki
    have hgetk : L2.get ⟨k, Nat.lt_trans hk hi2⟩ = s.lessons.get ⟨k, hkl⟩ := by
      simp [hL2, List.getElem_set_ne hik]
    rw [hgetk]
    cases hm : keyMatches (s.lessons.get ⟨k, hkl⟩) (snapshot l)
    · rfl
    · exact absurd (huniq k hkl hm) hki
  have hgive : giveBackSpace L2 (snapshot l) =
      L2.set i { L2.get ⟨i, hi2⟩ with spaces := (L2.get ⟨i, hi2⟩).spaces + 1 } :=
    giveBackSpace_first_match (snapshot l) L2 i hi2 hmatch hfirst
  have hrestore : L2.set i { L2.get ⟨i, hi2⟩ with
      spaces := (L2.get ⟨i, hi2⟩).spaces + 1 } = s.lessons := by
    rw [hgeti, hL2, List.set_set]
    have : l.spaces - 1 + 1 = l.spaces := by ring
    rw [this]
    have : { l with spaces := l.spaces } = l := rfl
    rw [this, hl]
    exact set_get_self s.lessons i hi
  have h0 : ¬ ((s.cart.length : Int) < 0) := by omega
  have h1 : ¬ (((s.cart ++ [snapshot l]).length : Int) ≤ (s.cart.length : Int)) := by
    simp
  simp only [removeOne, h0, h1, decide_eq_true_eq, decide_eq_false_iff_not,
    not_false_eq_true, Bool.or_self, if_neg, Bool.false_or, decide_False]
  rw [hgive, hrestore]
  simp [Int.toNat_natCast, eraseIdx_append_length]

/-- Witness for `addSeat_removeSeat_roundtrip` on the one-lesson catalog. -/
theorem addSeat_removeSeat_roundtrip_witness :
    removeOne (addToCart mathState (some 0)) ((mathState.cart.length : Int))
      (snapshot (mathState.lessons.get ⟨0, Nat.one_pos⟩)) = mathState :=
  addSeat_removeSeat_roundtrip mathState 0 Nat.one_pos
    ((by decide : (0 : Int) < mathLesson.spaces))
    (fun j hj _ => Nat.lt_one_iff.mp hj)

/-! ## Checkout workflow lemmas -/

/-- A PUT loop none of whose responses is a network error always runs to
completion (the source never inspects the status of a PUT response). -/
theorem runPuts_completes (putResps : Nat → Resp) (h : ∀ k, putResps k ≠ Resp.netErr)
    (lessons : List Lesson) :
    ∀ (items : List CartItem) (k : Nat), (runPuts lessons items putResps k).2 = true := by
  intro items
  induction items with
  | nil => intro k; rfl
  | cons item rest ih =>
    intro k
    cases hf : lessons.find? (fun l => keyMatches l item) with
    | none => simpa [runPuts, hf] using ih k
    | some l =>
      cases hr : putResps k with
      | netErr => exact absurd hr (h k)
      | status ok => simpa [runPuts, hf, hr] using ih (k + 1)

/-- Claim C1 (amended): during a valid checkout, a network error or a
non-success status on the order submission, or a network error on any
per-item availability update, lands in the `catch` block: the outcome is
`Failed`, the remaining update steps are aborted (`runPuts` stops at the
failing call), and the whole state — cart and customer data included — is
left unchanged, allowing resubmission.  A non-success status on a per-item
availability update, however, is ignored: the source never inspects a PUT
response, so when no PUT suffers a network error the workflow reaches
`Success` regardless of the PUT statuses. -/
theorem checkout_failure_spec (s : AppState) (orderResp : Resp) (putResps : Nat → Resp)
    (reloadResp : Resp) (reloadData : List Lesson) (hvalid : isCheckoutValid s = true) :
    ((orderResp = .netErr ∨ orderResp = .status false) →
      checkout s orderResp putResps reloadResp reloadData =
        ⟨s, .failed, 0, ["There was a problem submitting your order."]⟩) ∧
    (∀ n : Nat, orderResp = .status true →
      runPuts s.lessons s.cart putResps 0 = (n, false) →
      checkout s orderResp putResps reloadResp reloadData =
        ⟨s, .failed, n, ["There was a problem submitting your order."]⟩) ∧
    (orderResp = .status true → (∀ k, putResps k ≠ Resp.netErr) →
      (checkout s orderResp putResps reloadResp reloadData).outcome = .success) := by
  refine ⟨?_, ?_, ?_⟩
  · rintro (rfl | rfl) <;> simp [checkout, hvalid]
  · rintro n rfl hrun
    simp [checkout, hvalid, hrun]
  · rintro rfl hne
    have hrun := runPuts_completes putResps hne s.lessons s.cart 0
    rcases hr : runPuts s.lessons s.cart putResps 0 with ⟨n, b⟩
    rw [hr] at hrun
    cases b
    · cases hrun
    · simp [checkout, hvalid, hr, loadLessons]

/-- Witness for `checkout_failure_spec`: a network error on the order POST
fails the checkout and preserves the state. -/
theorem checkout_failure_spec_witness :
    checkout cxState .netErr (fun _ => .status true) (.status true) [] =
      ⟨cxState, .failed, 0, ["There was a problem submitting your order."]⟩ :=
  (checkout_failure_spec cxState .netErr (fun _ => .status true) (.status true) []
    (by decide)).1 (Or.inl rfl)

/-- Claim C1 as stated is false on the code at this input: the state is
valid, the order POST succeeds, and the single per-item availability update
resolves with a non-success status — yet the workflow reaches `Success`
(the PUT status is never inspected), one PUT was issued, and the cart is
cleared rather than preserved, contradicting the claimed transition to
`Failed` with cart and customer data unchanged. -/
theorem checkout_put_status_counterexample :
    (checkout cxState (.status true) (fun _ => .status false) (.status true) []).outcome
        = .success ∧
    (checkout cxState (.status true) (fun _ => .status false) (.status true) []).putsIssued
        = 1 ∧
    (checkout cxState (.status true) (fun _ => .status false) (.status true) []).state.cart
        = [] := by
  decide

/-! ## Sort order lemmas -/

/-- `lexLT` on a cons pair: head strictly smaller, or heads equal and
tails ordered. -/
theorem lexLT_cons_iff (x y : Char) (xs ys : List Char) :
    lexLT (x :: xs) (y :: ys) = true ↔ x < y ∨ (x = y ∧ lexLT xs ys = true) := by
  by_cases hxy : x < y
  · simp [lexLT, hxy]
  · by_cases hyx : y < x
    · have hne : ¬ x = y := fun h => absurd (h ▸ hyx) (lt_irrefl x)
      simp [lexLT, hxy, hyx, hne]
    · have heq : x = y := le_antisymm (not_lt.mp hyx) (not_lt.mp hxy)
      simp [lexLT, hxy, hyx, heq]

/-- `lexLT` is irreflexive. -/
theorem lexLT_irrefl : ∀ (l : List Char), lexLT l l = false := by
  intro l
  induction l with
  | nil => rfl
  | cons a as ih => simp [lexLT, ih]

/-- `lexLT` is transitive. -/
theorem lexLT_trans : ∀ (a b c : List Char),
    lexLT a b = true → lexLT b c = true → lexLT a c = true := by
  intro a
  induction a with
  | nil =>
    intro b c hab hbc
    cases b with
    | nil => simp [lexLT] at hab
    | cons y ys =>
      cases c with
      | nil => simp [lexLT] at hbc
      | cons z zs => rfl
  | cons x xs ih =>
    intro b c hab hbc
    cases b with
    | nil => simp [lexLT] at hab
    | cons y ys =>
      cases c with
      | nil => simp [lexLT] at hbc
      | cons z zs =>
        rw [lexLT_cons_iff] at hab hbc ⊢
        rcases hab with h1 | ⟨rfl, h1⟩
        · rcases hbc with h2 | ⟨rfl, h2⟩
          · exact Or.inl (lt_trans h1 h2)
          · exact Or.inl h1
        · rcases hbc with h2 | ⟨rfl, h2⟩
          · exact Or.inl h2
          · exact Or.inr ⟨rfl, ih ys zs h1 h2⟩

/-- `lexLT` is asymmetric. -/
theorem lexLT_asymm : ∀ (a b : List Char), lexLT a b = true → lexLT b a = false := by
  intro a b hab
  cases hba : lexLT b a
  · rfl
  · exfalso
    have h1 : lexLT a a = true := lexLT_trans a b a hab hba
    rw [lexLT_irrefl a] at h1
    cases h1

/-- Any two character lists are equal or `lexLT`-comparable. -/
theorem lexLT_trichotomy : ∀ (a b : List Char),
    a = b ∨ lexLT a b = true ∨ lexLT b a = true := by
  intro a
  induction a with
  | nil =>
    intro b
    cases b with
    | nil => exact Or.inl rfl
    | cons y ys => exact Or.inr (Or.inl rfl)
  | cons x xs ih =>
    intro b
    cases b with
    | nil => exact Or.inr (Or.inr rfl)
    | cons y ys =>
      rcases lt_trichotomy x y with h | h | h
      · exact Or.inr (Or.inl ((lexLT_cons_iff x y xs ys).mpr (Or.inl h)))
      · subst h
        rcases ih ys with h2 | h2 | h2
        · exact Or.inl (by rw [h2])
        · exact Or.inr (Or.inl ((lexLT_cons_iff x x xs ys).mpr (Or.inr ⟨rfl, h2⟩)))
        · exact Or.inr (Or.inr ((lexLT_cons_iff x x ys xs).mpr (Or.inr ⟨rfl, h2⟩)))
      · exact Or.inr (Or.inr ((lexLT_cons_iff y x ys xs).mpr (Or.inl h)))

/-- `svLT` is irreflexive. -/
theorem svLT_irrefl (v : SortVal) : svLT v v = false := by
  cases v with
  | str a => simpa [svLT] using lexLT_irrefl a
  | num n => simp [svLT]

/-- `svLT` is asymmetric. -/
theorem svLT_asymm : ∀ (v w : SortVal), svLT v w = true → svLT w v = false := by
  intro v w h
  cases v with
  | str a =>
    cases w with
    | str b =>
      simp only [svLT] at h ⊢
      exact lexLT_asymm a b h
    | num m => simp [svLT]
  | num n =>
    cases w with
    | str b => simp [svLT]
    | num m =>
      simp only [svLT, decide_eq_true_eq] at h
      simp only [svLT, decide_eq_false_iff_not]
      omega

/-- From `lexLT b a = false` and `lexLT c b = false` follows
`lexLT c a = false` (transitivity of the induced weak order). -/
theorem lexLT_neg_trans (a b c : List Char)
    (h1 : lexLT b a = false) (h2 : lexLT c b = false) : lexLT c a = false := by
  cases hca : lexLT c a
  · rfl
  · exfalso
    rcases lexLT_trichotomy c b with heq | hlt | hlt
    · rw [heq] at hca
      rw [hca] at h1
      cases h1
    · rw [hlt] at h2
      cases h2
    · have := lexLT_trans b c a hlt hca
      rw [this] at h1
      cases h1

/-- The comparator relation is total: for any fixed attribute, of two lessons
at least one may come first. -/
theorem lessonLE_total (attr : SortAttr) (a b : Lesson) :
    (lessonLE attr a b || lessonLE attr b a) = true := by
  cases hp : svLT (getSortValue attr b) (getSortValue attr a)
  · simp [lessonLE, hp]
  · have hq := svLT_asymm _ _ hp
    simp [lessonLE, hp, hq]

/-- The comparator relation is transitive for any fixed attribute (the two
keys of a fixed attribute always have the same shape). -/
theorem lessonLE_trans (attr : SortAttr) (a b c : Lesson) :
    lessonLE attr a b = true → lessonLE attr b c = true → lessonLE attr a c = true := by
  intro hab hbc
  simp only [lessonLE, Bool.not_eq_true', Bool.not_eq_false] at hab hbc ⊢
  cases attr with
  | subject =>
    simp only [getSortValue, svLT] at hab hbc ⊢
    exact lexLT_neg_trans _ _ _ hab hbc
  | location =>
    simp only [getSortValue, svLT] at hab hbc ⊢
    exact lexLT_neg_trans _ _ _ hab hbc
  | price =>
    simp only [getSortValue, svLT, decide_eq_false_iff_not] at hab hbc ⊢
    omega
  | spaces =>
    simp only [getSortValue, svLT, decide_eq_false_iff_not] at hab hbc ⊢
    omega

/-- Stability of the sort, in filter form: for any key value `v`, the
sublist of lessons whose key is `v` is the same before and after sorting
(ties preserve input order). -/
theorem mergeSort_filter_key (attr : SortAttr) (L : List Lesson) (v : SortVal) :
    (L.mergeSort (lessonLE attr)).filter (fun x => getSortValue attr x == v) =
      L.filter (fun x => getSortValue attr x == v) := by
  have hpair : (L.filter (fun x => getSortValue attr x == v)).Pairwise
      (fun a b => lessonLE attr a b = true) := by
    apply List.pairwise_of_forall_mem_list
    intro a ha b hb
    have hpa : getSortValue attr a = v := by
      simpa using List.of_mem_filter ha
    have hpb : getSortValue attr b = v := by
      simpa using List.of_mem_filter hb
    simp [lessonLE, hpa, hpb, svLT_irrefl]
  have hsub2 : (L.filter (fun x => getSortValue attr x == v)).Sublist
      (L.mergeSort (lessonLE attr)) :=
    List.sublist_mergeSort
      (fun a b c hab hbc => lessonLE_trans attr a b c hab hbc)
      (fun a b => lessonLE_total attr a b)
      hpair (List.filter_sublist L)
  have h3 : (L.filter (fun x => getSortValue attr x == v)).Sublist
      ((L.mergeSort (lessonLE attr)).filter (fun x => getSortValue attr x == v)) := by
    have h4 := hsub2.filter (fun x => getSortValue attr x == v)
    simpa [List.filter_filter] using h4
  have hperm : ((L.mergeSort (lessonLE attr)).filter
      (fun x => getSortValue attr x == v)).Perm
      (L.filter (fun x => getSortValue attr x == v)) :=
    (List.mergeSort_perm L (lessonLE attr)).filter (fun x => getSortValue attr x == v)
  exact (h3.eq_of_length hperm.length_eq.symm).symm

/-- Claim C3: for every list and every sort attribute, `sortedLessons` in
either direction is a permutation of its input (no element lost or
duplicated); the ascending result is non-decreasing by the chosen key with
ties preserving input order (for each key value, the sublist of lessons with
that key is unchanged); and the descending result is the exact reverse
sequence of the ascending result, reversed tie order included. -/
theorem sortedView_spec (attr : SortAttr) (L : List Lesson) :
    (sortedLessons attr .asc L).Perm L ∧
    (sortedLessons attr .desc L).Perm L ∧
    (sortedLessons attr .asc L).Pairwise
      (fun a b => svLT (getSortValue attr b) (getSortValue attr a) = false) ∧
    (∀ v : SortVal,
      (sortedLessons attr .asc L).filter (fun x => getSortValue attr x == v) =
        L.filter (fun x => getSortValue attr x == v)) ∧
    sortedLessons attr .desc L = (sortedLessons attr .asc L).reverse := by
  have hasc : sortedLessons attr .asc L = L.mergeSort (lessonLE attr) := rfl
  have hdesc : sortedLessons attr .desc L = (L.mergeSort (lessonLE attr)).reverse := rfl
  refine ⟨?_, ?_, ?_, ?_, ?_⟩
  · rw [hasc]
    exact List.mergeSort_perm L (lessonLE attr)
  · rw [hdesc]
    exact (List.reverse_perm _).trans (List.mergeSort_perm L (lessonLE attr))
  · rw [hasc]
    have hsorted := List.sorted_mergeSort
      (fun a b c hab hbc => lessonLE_trans attr a b c hab hbc)
      (fun a b => lessonLE_total attr a b) L
    exact hsorted.imp (fun h => by simpa [lessonLE] using h)
  · intro v
    rw [hasc]
    exact mergeSort_filter_key attr L v
  · rw [hasc, hdesc]
